import Mathlib

/-!
Shallow embedding of the server half of `src/client/client.go` from the
PokemonGoUsingGoLang repository (the file contains a presentation client
followed by the authoritative game server; all definitions below are
translated from the server part).

Modelling conventions:
* Go strings are Lean `String`; Go `int` is `Int` (overflow is irrelevant at
  the scales the claims touch).
* Go maps are association lists with replace-or-append assignment and
  filter-based deletion, mirroring `m[k] = v` / `delete(m, k)`; `m[k]` reads
  default to the zero value `""` as in Go.
* `strconv.Atoi` with an ignored error result is `goAtoi` (0 on any parse
  failure); `strings.Split` on the single-character separators used by the
  server is `goSplit`; `strings.TrimSpace` is `goTrim`.
* Go slice indexing panics out of range; fallible code paths are embedded in
  `Option`, with `none` standing for a runtime panic.
* Board coordinates travel on the wire as "x-y" strings; the formatting and
  reparsing round-trip is elided and a coordinate is a pair `Loc = Nat × Nat`.
-/

/-- The Go `int` comparison-free character classifier for ASCII digits. -/
def isDigitChar (ch : Char) : Bool := decide ('0' ≤ ch ∧ ch ≤ '9')

def digitVal (ch : Char) : Nat := ch.toNat - '0'.toNat

/-- Parse a nonempty all-digit character list as a natural number. -/
def parseNat (cs : List Char) : Option Nat :=
  if cs.isEmpty then none
  else if cs.all isDigitChar then
    some (cs.foldl (fun acc ch => acc * 10 + digitVal ch) 0)
  else none

/-- `strconv.Atoi` with the error ignored, as the server does throughout:
any string that fails to parse yields the zero value 0. -/
def goAtoi (s : String) : Int :=
  match s.data with
  | '-' :: rest => match parseNat rest with | some n => -(n : Int) | none => 0
  | '+' :: rest => match parseNat rest with | some n => (n : Int) | none => 0
  | cs => match parseNat cs with | some n => (n : Int) | none => 0

/-- `isNumber` from the server: whether `strconv.Atoi` succeeds. -/
def isNumberG (s : String) : Bool :=
  match s.data with
  | '-' :: rest => (parseNat rest).isSome
  | '+' :: rest => (parseNat rest).isSome
  | cs => (parseNat cs).isSome

def isSpaceChar (ch : Char) : Bool :=
  decide (ch = ' ' ∨ ch = '\t' ∨ ch = '\n' ∨ ch = '\r')

/-- `strings.TrimSpace` (restricted to the ASCII whitespace the protocol can
produce). -/
def goTrim (s : String) : String :=
  String.mk (((s.data.dropWhile isSpaceChar).reverse.dropWhile isSpaceChar).reverse)

def splitAux (c : Char) : List Char → List Char → List String
  | [], acc => [String.mk acc.reverse]
  | x :: xs, acc =>
    if x = c then String.mk acc.reverse :: splitAux c xs []
    else splitAux c xs (x :: acc)

/-- `strings.Split` for a single-character separator (the server only splits
on "-" and "*"). -/
def goSplit (s : String) (c : Char) : List String := splitAux c s.data []

/-- Go slice indexing: panics (modelled as `none`) when the index is negative
or past the end. -/
def goIndex {α : Type} (xs : List α) (i : Int) : Option α :=
  if i < 0 then none else xs.get? i.toNat

/-- Association-list lookup, modelling a Go map read that distinguishes
presence (`value, ok := m[k]`). -/
def alLookup {κ α : Type} [DecidableEq κ] : List (κ × α) → κ → Option α
  | [], _ => none
  | (k', v) :: t, k => if k' = k then some v else alLookup t k

/-- Go map assignment `m[k] = v`: replace the entry if the key is present,
otherwise add it. -/
def alSet {κ α : Type} [DecidableEq κ] : List (κ × α) → κ → α → List (κ × α)
  | [], k, v => [(k, v)]
  | (k', v') :: t, k, v => if k' = k then (k, v) :: t else (k', v') :: alSet t k v

/-- Go map deletion `delete(m, k)`. -/
def alDel {κ α : Type} [DecidableEq κ] (m : List (κ × α)) (k : κ) : List (κ × α) :=
  m.filter (fun p => decide (p.1 ≠ k))

/-- A Go `map[string]string` read, which defaults to the zero value `""`. -/
def goMapGet (m : List (String × String)) (k : String) : String :=
  (alLookup m k).getD ""

/-- The `Pokemon` struct shared by both halves of the file. -/
structure Pokemon where
  id : String
  name : String
  types : List String
  stats : List (String × String)
  exp : String
deriving DecidableEq, Repr

def emptyPokemon : Pokemon := ⟨"", "", [], [], ""⟩

/-- The `Player` struct of the server (`players.json` records). -/
structure Player where
  username : String
  password : String
  pokeBalls : List Pokemon
deriving DecidableEq, Repr

/-- A battle message written to one connection: (recipient, value of the
`battle` key). -/
abbrev Msg := String × String

/-- `fmt.Sprintf("attacked-%d-%d-%d", defHP, damage, defenderIndex)`. -/
def attackedMsg (hp damage idx : Int) : String :=
  "attacked-" ++ toString hp ++ "-" ++ toString damage ++ "-" ++ toString idx

/-- The battle-relevant global variables of the server. -/
structure BattleState where
  pokeBalls_P1 : List Pokemon
  pokeBalls_P2 : List Pokemon
  currentDefIndex_P1 : Int
  currentDefIndex_P2 : Int
  P1 : String
  P2 : String
  player1Turn : Bool
deriving DecidableEq, Repr

/-- `attackEnemy` from the server. Returns the updated defending team and the
ordered list of battle messages written, or `none` for the (unreachable in
the program) panic on a negative defender index. The Go function also
assigns the defending team back into the matching global; the caller below
performs that assignment. -/
def attackEnemy (attackingTeam defendingTeam : List Pokemon)
    (attackerIndex defenderIndex : Int) (defenderPlayer : String) :
    Option (List Pokemon × List Msg) :=
  if attackerIndex < 0 ∨ attackerIndex ≥ (attackingTeam.length : Int) ∨
      defendingTeam.length = 0 then
    some (defendingTeam, [])
  else
    let dIdx : Int :=
      if defenderIndex ≥ (defendingTeam.length : Int) then 0 else defenderIndex
    match goIndex defendingTeam dIdx with
    | none => none
    | some defPoke =>
      let defHP := goAtoi (goMapGet defPoke.stats "HP")
      let atkValue :=
        goAtoi (goMapGet ((goIndex attackingTeam attackerIndex).getD emptyPokemon).stats "Attack")
      let defValue := goAtoi (goMapGet defPoke.stats "Defense")
      let damage0 := atkValue * 50 - defValue
      let damage := if damage0 < 1 then 1 else damage0
      let newHP := defHP - damage
      if newHP ≤ 0 then
        some (defendingTeam.take dIdx.toNat ++ defendingTeam.drop (dIdx.toNat + 1),
              [(defenderPlayer, attackedMsg 0 damage dIdx)])
      else
        some (defendingTeam.set dIdx.toNat
                { defPoke with stats := alSet defPoke.stats "HP" (toString newHP) },
              [(defenderPlayer, attackedMsg newHP damage dIdx)])

/-- `handleBattleAction` from the server: interprets `<slot>*attack` or
`<slot>*switch`. Returns the updated battle state and the ordered battle
messages written (`none` embeds the panic path of `attackEnemy`).
Note the switch branch consults only `player1Turn`, never `currentPlayer`. -/
def handleBattleAction (bs : BattleState) (currentPlayer mainMessage : String) :
    Option (BattleState × List Msg) :=
  match goSplit mainMessage '*' with
  | [s0, s1] =>
    let action := goTrim s1
    let bs1 :=
      if action = "switch" then
        if bs.player1Turn then { bs with currentDefIndex_P1 := goAtoi s0 }
        else { bs with currentDefIndex_P2 := goAtoi s0 }
      else bs
    if action = "attack" then
      let currentPokemonIndex := goAtoi s0
      if bs1.player1Turn then
        if currentPlayer = bs1.P1 then
          match attackEnemy bs1.pokeBalls_P1 bs1.pokeBalls_P2 currentPokemonIndex
              bs1.currentDefIndex_P2 bs1.P2 with
          | none => none
          | some (newDef, msgs) =>
            some ({ bs1 with pokeBalls_P2 := newDef, player1Turn := false },
                  msgs ++ [(bs1.P1, "wait"), (bs1.P2, bs1.P2)])
        else some (bs1, [])
      else
        if currentPlayer = bs1.P2 then
          match attackEnemy bs1.pokeBalls_P2 bs1.pokeBalls_P1 currentPokemonIndex
              bs1.currentDefIndex_P1 bs1.P1 with
          | none => none
          | some (newDef, msgs) =>
            some ({ bs1 with pokeBalls_P1 := newDef, player1Turn := true },
                  msgs ++ [(bs1.P2, "wait"), (bs1.P1, bs1.P1)])
        else some (bs1, [])
    else some (bs1, [])
  | _ => some (bs, [])

/-- `submitPokemon` from the server: look the id up in the catalog (first
match) and append to the submitting side, with no size check. -/
def submitPokemon (POKEMONS : List Pokemon) (bs : BattleState)
    (currentPlayer pokemonID : String) : BattleState :=
  match POKEMONS.find? (fun p => decide (p.id = pokemonID)) with
  | some p =>
    if currentPlayer = bs.P1 then { bs with pokeBalls_P1 := bs.pokeBalls_P1 ++ [p] }
    else if currentPlayer = bs.P2 then { bs with pokeBalls_P2 := bs.pokeBalls_P2 ++ [p] }
    else bs
  | none => bs

/-- The inline battle-start block of `HandleInGameConnection`, run after every
roster submission: when both rosters are exactly 3, compare the Speed of each
slot-0 creature and assign the first turn (messages: your-turn to the mover,
wait to the other). -/
def battleStartCheck (bs : BattleState) : BattleState × List Msg :=
  if bs.pokeBalls_P1.length = 3 ∧ bs.pokeBalls_P2.length = 3 then
    let speed_P1 := goAtoi (goMapGet (bs.pokeBalls_P1.headD emptyPokemon).stats "Speed")
    let speed_P2 := goAtoi (goMapGet (bs.pokeBalls_P2.headD emptyPokemon).stats "Speed")
    if speed_P1 ≥ speed_P2 then
      ({ bs with player1Turn := true }, [(bs.P1, bs.P1), (bs.P2, "wait")])
    else
      ({ bs with player1Turn := false }, [(bs.P2, bs.P2), (bs.P1, "wait")])
  else (bs, [])

/-- The submit branch of `HandleInGameConnection`: submit, then run the
battle-start check. -/
def submitAndMaybeStart (POKEMONS : List Pokemon) (bs : BattleState)
    (currentPlayer pokemonID : String) : BattleState × List Msg :=
  battleStartCheck (submitPokemon POKEMONS bs currentPlayer pokemonID)

/-- `initiateBattle` from the server: the mover becomes P1, the encountered
player P2; both are notified with the opponent's name; rosters reset. -/
def initiateBattle (bs : BattleState) (thisUsername enemyUsername : String) :
    BattleState × List Msg :=
  ({ bs with pokeBalls_P1 := [], pokeBalls_P2 := [],
             P1 := thisUsername, P2 := enemyUsername, player1Turn := true },
   [(thisUsername, enemyUsername), (enemyUsername, thisUsername)])

/-- A board coordinate (the Go code writes it as the string "x-y"). -/
abbrev Loc := Nat × Nat

def ROWS : Nat := 10
def COLS : Nat := 18

/-- The shared world state of the server: `BOARD`, the two reverse location
indices, and the despawn queue. -/
structure ServerState where
  board : Loc → String
  pokemonLocations : List (Loc × String)
  playerLocations : List (Loc × String)
  despawnQueues : List Loc

/-- `BOARD[x][y] = v`. -/
def setCell (b : Loc → String) (loc : Loc) (v : String) : Loc → String :=
  fun l => if l = loc then v else b l

/-- The empty board and empty indices the server starts from. -/
def initState : ServerState :=
  { board := fun _ => "", pokemonLocations := [], playerLocations := [], despawnQueues := [] }

/-- `placePlayerOnBoard`: write the username into the (randomly chosen empty)
cell and record the reverse-index entry. -/
def placePlayer (s : ServerState) (loc : Loc) (username : String) : ServerState :=
  { s with board := setCell s.board loc username,
           playerLocations := alSet s.playerLocations loc username }

/-- The `for ... { if pl == thisUsername { delete; break } }` loop of
`handleMovementOrEncounter`: remove the first entry held by the player. -/
def delFirstByValue : List (Loc × String) → String → List (Loc × String)
  | [], _ => []
  | (k', v') :: t, v => if v' = v then t else (k', v') :: delFirstByValue t v

/-- The plain-move branch of `handleMovementOrEncounter` (target cell holds
neither a creature nor a player): drop the old reverse-index entry and add
the new one. `BOARD` is not touched. -/
def movePlayer (s : ServerState) (username : String) (loc : Loc) : ServerState :=
  { s with playerLocations := alSet (delFirstByValue s.playerLocations username) loc username }

/-- The battle-encounter branch of `handleMovementOrEncounter`: the old
reverse-index entry is dropped and, because `battleStatus` is set, no new one
is added; the grid is untouched. -/
def removeMoverLocation (s : ServerState) (username : String) : ServerState :=
  { s with playerLocations := delFirstByValue s.playerLocations username }

/-- The grid effect of the catch branch of `handleMovementOrEncounter` +
`catchPokemon`: old player entry dropped (and no new one added), caught cell
cleared from `BOARD` and from `POKEMON_LOCATIONS`. -/
def catchGridUpdate (s : ServerState) (username : String) (loc : Loc) : ServerState :=
  { s with playerLocations := delFirstByValue s.playerLocations username,
           board := setCell s.board loc "",
           pokemonLocations := alDel s.pokemonLocations loc }

/-- `removeConnectionAndNotify`: delete every reverse-index entry of the
player; the grid cell is not cleared. -/
def disconnectPlayer (s : ServerState) (username : String) : ServerState :=
  { s with playerLocations := s.playerLocations.filter (fun p => decide (p.2 ≠ username)) }

/-- One iteration of the spawn loop of `generateRandomPokemons`, at a chosen
empty cell and chosen catalog id: write the cell, enqueue for despawn, record
the reverse-index entry. -/
def spawnPokemon (s : ServerState) (loc : Loc) (pid : String) : ServerState :=
  { s with board := setCell s.board loc pid,
           despawnQueues := s.despawnQueues ++ [loc],
           pokemonLocations := alSet s.pokemonLocations loc pid }

/-- `generateRandomPokemons` for a chosen list of (cell, id) draws. -/
def spawnMany (s : ServerState) (choices : List (Loc × String)) : ServerState :=
  choices.foldl (fun st c => spawnPokemon st c.1 c.2) s

def NUMBERTOPROCESS : Nat := 5

/-- Clearing of one queued location inside the despawn loop: `BOARD[x][y] = ""`
and `delete(POKEMON_LOCATIONS, location)`. -/
def clearLoc (s : ServerState) (loc : Loc) : ServerState :=
  { s with board := setCell s.board loc "",
           pokemonLocations := alDel s.pokemonLocations loc }

/-- The despawn tick of `handlePokemons`: skip entirely when fewer than
`NUMBERTOPROCESS` entries are queued, else clear the oldest
`NUMBERTOPROCESS` queued cells and broadcast `{location: ""}` for each, in
queue order. -/
def despawnTick (s : ServerState) : ServerState × List (Loc × String) :=
  if s.despawnQueues.length < NUMBERTOPROCESS then (s, [])
  else
    let locs := s.despawnQueues.take NUMBERTOPROCESS
    let s1 := locs.foldl clearLoc s
    ({ s1 with despawnQueues := s.despawnQueues.drop NUMBERTOPROCESS },
     locs.map (fun l => (l, "")))

/-- One server event sent to a socket or to disk during catch resolution. -/
inductive SEvent where
  | sendUser (recipient : String) (key value : String)
  | sendLoc (recipient : String) (loc : Loc) (value : String)
  | persistPlayers (players : List Player)
deriving DecidableEq, Repr

/-- `catchPokemon` from the server, with its observable effects in program
order: acknowledge the mover with `{username: pokemonID}`, append
`POKEMONS[Atoi(pokemonID)]` to every matching account, rewrite `players.json`,
clear the cell from `BOARD` and `POKEMON_LOCATIONS`, and notify every other
connection with `{locKey: ""}`. `none` embeds the panic when the id, read as
a catalog index, is out of range while some account matches the mover. -/
structure CatchResult where
  players : List Player
  board : Loc → String
  pokemonLocations : List (Loc × String)
  events : List SEvent

def catchPokemon (POKEMONS : List Pokemon) (connections : List String)
    (players : List Player) (board : Loc → String)
    (pokemonLocations : List (Loc × String))
    (username : String) (loc : Loc) (pokemonID : String) : Option CatchResult :=
  let ackEvent := SEvent.sendUser username username pokemonID
  let pokeID := goAtoi pokemonID
  let playersUpd : Option (List Player) :=
    if players.any (fun pl => decide (pl.username = username)) then
      (goIndex POKEMONS pokeID).map (fun caught =>
        players.map (fun pl =>
          if pl.username = username then { pl with pokeBalls := pl.pokeBalls ++ [caught] }
          else pl))
    else some players
  playersUpd.map (fun players1 =>
    { players := players1
      board := setCell board loc ""
      pokemonLocations := alDel pokemonLocations loc
      events := ackEvent :: SEvent.persistPlayers players1 ::
        (connections.filter (fun u => decide (u ≠ username))).map
          (fun u => SEvent.sendLoc u loc "") })

/-- The grid operations the server performs, as a step relation. The random
draws (cells, catalog ids, usernames) are existentially chosen subject to the
checks the code makes: placement and spawning retry until the drawn cell is
empty, and spawned ids / usernames come from the data files (catalog ids are
numeric and nonempty, usernames are non-numeric and nonempty). A catch step
requires a creature at the target, a battle step another player, a plain move
neither. -/
inductive Step : ServerState → ServerState → Prop where
  | place (s : ServerState) (loc : Loc) (username : String) :
      loc.1 < ROWS → loc.2 < COLS → s.board loc = "" →
      username ≠ "" → isNumberG username = false →
      Step s (placePlayer s loc username)
  | spawn (s : ServerState) (loc : Loc) (pid : String) :
      loc.1 < ROWS → loc.2 < COLS → s.board loc = "" →
      pid ≠ "" → isNumberG pid = true →
      Step s (spawnPokemon s loc pid)
  | move (s : ServerState) (username : String) (loc : Loc) :
      alLookup s.pokemonLocations loc = none →
      alLookup s.playerLocations loc = none →
      Step s (movePlayer s username loc)
  | encounterPlayer (s : ServerState) (username : String) (loc : Loc) (enemy : String) :
      alLookup s.pokemonLocations loc = none →
      alLookup s.playerLocations loc = some enemy →
      Step s (removeMoverLocation s username)
  | encounterPokemon (s : ServerState) (username : String) (loc : Loc) (pid : String) :
      alLookup s.pokemonLocations loc = some pid →
      Step s (catchGridUpdate s username loc)
  | disconnect (s : ServerState) (username : String) :
      Step s (disconnectPlayer s username)
  | despawn (s : ServerState) :
      Step s (despawnTick s).1

/-- States the server can reach from startup by grid operations. -/
inductive Reachable : ServerState → Prop where
  | init : Reachable initState
  | step {s t : ServerState} : Reachable s → Step s t → Reachable t

/-- The creature half of the grid bijection: every `POKEMON_LOCATIONS` entry
names a cell that holds exactly that (nonempty, numeric) id; every
creature-occupied cell (nonempty numeric occupant, the code's own
discriminator `isNumber`) has an entry; keys are unique. -/
def CreatureInv (s : ServerState) : Prop :=
  (∀ loc pid, alLookup s.pokemonLocations loc = some pid →
      s.board loc = pid ∧ pid ≠ "" ∧ isNumberG pid = true) ∧
  (∀ loc, s.board loc ≠ "" → isNumberG (s.board loc) = true →
      alLookup s.pokemonLocations loc = some (s.board loc)) ∧
  (s.pokemonLocations.map Prod.fst).Nodup

/-- The full bijection the spec claims, player side included: every occupied
cell has a reverse-index entry in one of the two indices carrying exactly the
cell's occupant, and conversely. -/
def FullGridInv (s : ServerState) : Prop :=
  (∀ loc pid, alLookup s.pokemonLocations loc = some pid → s.board loc = pid) ∧
  (∀ loc u, alLookup s.playerLocations loc = some u → s.board loc = u) ∧
  (∀ loc, s.board loc ≠ "" →
      alLookup s.pokemonLocations loc = some (s.board loc) ∨
      alLookup s.playerLocations loc = some (s.board loc)) ∧
  (s.pokemonLocations.map Prod.fst).Nodup ∧
  (s.playerLocations.map Prod.fst).Nodup

section AssocLemmas

variable {κ α : Type} [DecidableEq κ]

theorem alLookup_alSet_self (m : List (κ × α)) (k : κ) (v : α) :
    alLookup (alSet m k v) k = some v := by
  induction m with
  | nil => simp [alSet, alLookup]
  | cons h t ih =>
    obtain ⟨k', v'⟩ := h
    by_cases hk : k' = k
    · subst hk; simp [alSet, alLookup]
    · simp [alSet, alLookup, hk, ih]

theorem alLookup_alSet_ne (m : List (κ × α)) {k1 k : κ} (v : α) (hne : k1 ≠ k) :
    alLookup (alSet m k v) k1 = alLookup m k1 := by
  induction m with
  | nil => simp [alSet, alLookup, Ne.symm hne]
  | cons h t ih =>
    obtain ⟨k', v'⟩ := h
    by_cases hk : k' = k
    · subst hk
      simp [alSet, alLookup, Ne.symm hne]
    · by_cases hk1 : k' = k1 <;> simp [alSet, alLookup, hk, hk1, ih, hne]

theorem not_mem_of_alLookup_none {m : List (κ × α)} {k : κ}
    (h : alLookup m k = none) : k ∉ m.map Prod.fst := by
  induction m with
  | nil => simp
  | cons hd t ih =>
    obtain ⟨k', v'⟩ := hd
    by_cases hk : k' = k
    · subst hk; simp [alLookup] at h
    · simp only [alLookup, if_neg hk] at h
      simpa [Ne.symm hk] using ih h

theorem mapfst_alSet_of_none {m : List (κ × α)} {k : κ} (v : α)
    (h : alLookup m k = none) :
    (alSet m k v).map Prod.fst = m.map Prod.fst ++ [k] := by
  induction m with
  | nil => simp [alSet]
  | cons hd t ih =>
    obtain ⟨k', v'⟩ := hd
    by_cases hk : k' = k
    · subst hk; simp [alLookup] at h
    · simp only [alLookup, if_neg hk] at h
      simp [alSet, hk, ih h]

theorem alLookup_alDel_self (m : List (κ × α)) (k : κ) :
    alLookup (alDel m k) k = none := by
  induction m with
  | nil => simp [alDel, alLookup]
  | cons hd t ih =>
    obtain ⟨k', v'⟩ := hd
    by_cases hk : k' = k
    · subst hk; simpa [alDel, List.filter] using ih
    · simpa [alDel, List.filter, hk, alLookup] using ih

theorem alLookup_alDel_ne (m : List (κ × α)) {k1 k : κ} (hne : k1 ≠ k) :
    alLookup (alDel m k) k1 = alLookup m k1 := by
  induction m with
  | nil => simp [alDel, alLookup]
  | cons hd t ih =>
    obtain ⟨k', v'⟩ := hd
    by_cases hk : k' = k
    · subst hk
      simpa [alDel, List.filter, alLookup, Ne.symm hne] using ih
    · by_cases hk1 : k' = k1
      · subst hk1; simp [alDel, List.filter, hk, alLookup]
      · simpa [alDel, List.filter, hk, alLookup, hk1] using ih

theorem nodup_mapfst_alDel {m : List (κ × α)} (k : κ)
    (h : (m.map Prod.fst).Nodup) : ((alDel m k).map Prod.fst).Nodup :=
  List.Nodup.sublist (List.Sublist.map Prod.fst (List.filter_sublist m)) h

end AssocLemmas

theorem creatureInv_of_fields {s t : ServerState}
    (hb : t.board = s.board) (hp : t.pokemonLocations = s.pokemonLocations)
    (h : CreatureInv s) : CreatureInv t := by
  unfold CreatureInv at h ⊢
  rw [hb, hp]
  exact h

theorem creatureInv_placePlayer {s : ServerState} {loc : Loc} {u : String}
    (h : CreatureInv s) (hemp : s.board loc = "") (hnum : isNumberG u = false) :
    CreatureInv (placePlayer s loc u) := by
  obtain ⟨h1, h2, h3⟩ := h
  refine ⟨?_, ?_, h3⟩
  · intro l pid hl
    have hl' := h1 l pid hl
    have hne : l ≠ loc := by
      rintro rfl
      exact hl'.2.1 (by rw [← hl'.1, hemp])
    refine ⟨?_, hl'.2⟩
    show setCell s.board loc u l = pid
    simpa [setCell, hne] using hl'.1
  · intro l hne0 hnum0
    by_cases hl : l = loc
    · subst hl
      have hb : (placePlayer s l u).board l = u := by simp [placePlayer, setCell]
      rw [hb] at hnum0
      rw [hnum] at hnum0
      cases hnum0
    · have hb : (placePlayer s loc u).board l = s.board l := by
        simp [placePlayer, setCell, hl]
      rw [hb] at hne0 hnum0 ⊢
      exact h2 l hne0 hnum0

theorem creatureInv_spawnPokemon {s : ServerState} {loc : Loc} {pid : String}
    (h : CreatureInv s) (hemp : s.board loc = "") (hz : pid ≠ "")
    (hnum : isNumberG pid = true) :
    CreatureInv (spawnPokemon s loc pid) := by
  obtain ⟨h1, h2, h3⟩ := h
  have hnone : alLookup s.pokemonLocations loc = none := by
    cases hcase : alLookup s.pokemonLocations loc with
    | none => rfl
    | some q =>
      have := h1 loc q hcase
      exact absurd (by rw [← this.1, hemp]) (Ne.symm this.2.1)
  refine ⟨?_, ?_, ?_⟩
  · intro l q hl
    by_cases hll : l = loc
    · subst hll
      rw [show (spawnPokemon s l pid).pokemonLocations = alSet s.pokemonLocations l pid
            from rfl, alLookup_alSet_self] at hl
      cases hl
      exact ⟨by simp [spawnPokemon, setCell], hz, hnum⟩
    · rw [show (spawnPokemon s loc pid).pokemonLocations = alSet s.pokemonLocations loc pid
            from rfl, alLookup_alSet_ne _ _ hll] at hl
      have hl' := h1 l q hl
      refine ⟨?_, hl'.2⟩
      show setCell s.board loc pid l = q
      simpa [setCell, hll] using hl'.1
  · intro l hne0 hnum0
    by_cases hll : l = loc
    · subst hll
      have hb : (spawnPokemon s l pid).board l = pid := by simp [spawnPokemon, setCell]
      rw [show (spawnPokemon s l pid).pokemonLocations = alSet s.pokemonLocations l pid
            from rfl, hb, alLookup_alSet_self]
    · have hb : (spawnPokemon s loc pid).board l = s.board l := by
        simp [spawnPokemon, setCell, hll]
      rw [show (spawnPokemon s loc pid).pokemonLocations = alSet s.pokemonLocations loc pid
            from rfl, hb, alLookup_alSet_ne _ _ hll]
      rw [hb] at hne0 hnum0
      exact h2 l hne0 hnum0
  · rw [show (spawnPokemon s loc pid).pokemonLocations = alSet s.pokemonLocations loc pid
          from rfl, mapfst_alSet_of_none _ hnone]
    rw [List.nodup_append]
    exact ⟨h3, List.nodup_singleton _,
      by simpa [List.disjoint_singleton] using not_mem_of_alLookup_none hnone⟩

theorem creatureInv_clearLoc {s : ServerState} (loc : Loc)
    (h : CreatureInv s) : CreatureInv (clearLoc s loc) := by
  obtain ⟨h1, h2, h3⟩ := h
  refine ⟨?_, ?_, nodup_mapfst_alDel _ h3⟩
  · intro l q hl
    by_cases hll : l = loc
    · subst hll
      rw [show (clearLoc s l).pokemonLocations = alDel s.pokemonLocations l from rfl,
        alLookup_alDel_self] at hl
      cases hl
    · rw [show (clearLoc s loc).pokemonLocations = alDel s.pokemonLocations loc from rfl,
        alLookup_alDel_ne _ hll] at hl
      have hl' := h1 l q hl
      refine ⟨?_, hl'.2⟩
      show setCell s.board loc "" l = q
      simpa [setCell, hll] using hl'.1
  · intro l hne0 hnum0
    by_cases hll : l = loc
    · subst hll
      have hb : (clearLoc s l).board l = "" := by simp [clearLoc, setCell]
      exact absurd hb hne0
    · have hb : (clearLoc s loc).board l = s.board l := by simp [clearLoc, setCell, hll]
      rw [show (clearLoc s loc).pokemonLocations = alDel s.pokemonLocations loc from rfl,
        alLookup_alDel_ne _ hll, hb]
      rw [hb] at hne0 hnum0
      exact h2 l hne0 hnum0

theorem creatureInv_foldl_clearLoc {s : ServerState} (locs : List Loc)
    (h : CreatureInv s) : CreatureInv (locs.foldl clearLoc s) := by
  induction locs generalizing s with
  | nil => exact h
  | cons a t ih => exact ih (creatureInv_clearLoc a h)

theorem creatureInv_initState : CreatureInv initState := by
  refine ⟨?_, ?_, ?_⟩
  · intro loc pid hl
    simp [initState, alLookup] at hl
  · intro loc hne
    simp [initState] at hne
  · simp [initState]

theorem creatureInv_step {s t : ServerState} (hst : Step s t) (h : CreatureInv s) :
    CreatureInv t := by
  cases hst with
  | place loc u hr hc hemp hz hnum => exact creatureInv_placePlayer h hemp hnum
  | spawn loc pid hr hc hemp hz hnum => exact creatureInv_spawnPokemon h hemp hz hnum
  | move u loc h1 h2 => exact creatureInv_of_fields rfl rfl h
  | encounterPlayer u loc e h1 h2 => exact creatureInv_of_fields rfl rfl h
  | encounterPokemon u loc pid h1 =>
    exact creatureInv_of_fields (t := catchGridUpdate s u loc) rfl rfl
      (creatureInv_clearLoc loc h)
  | disconnect u => exact creatureInv_of_fields rfl rfl h
  | despawn =>
    by_cases hlen : s.despawnQueues.length < NUMBERTOPROCESS
    · simpa [despawnTick, hlen] using h
    · have hfold := creatureInv_foldl_clearLoc (s := s)
        (s.despawnQueues.take NUMBERTOPROCESS) h
      refine creatureInv_of_fields ?_ ?_ hfold <;> simp [despawnTick, hlen]

/-- C1: for every reachable sequence of grid operations, the creature half of
the claimed bijection does hold: each creature-occupied `BOARD` cell (nonempty
numeric occupant) has exactly one `POKEMON_LOCATIONS` entry, carrying exactly
that cell's id, and each entry points back at such a cell. (The player half
of the claim is false — see the counterexample — because
`handleMovementOrEncounter`, the catch path and `removeConnectionAndNotify`
update only `PLAYER_LOCATIONS` and leave the player's `BOARD` cell stale.) -/
theorem C1_creature_index_invariant (s : ServerState) (h : Reachable s) :
    CreatureInv s := by
  induction h with
  | init => exact creatureInv_initState
  | step hr hstep ih => exact creatureInv_step hstep ih

def demoC1w : ServerState := spawnPokemon initState (1, 1) "7"

theorem C1_creature_index_invariant_witness : CreatureInv demoC1w :=
  C1_creature_index_invariant demoC1w
    (Reachable.step Reachable.init
      (Step.spawn initState (1, 1) "7" (by decide) (by decide) rfl (by decide) (by decide)))

def demoC1place : ServerState := placePlayer initState (0, 0) "ash"

def demoC1 : ServerState := movePlayer demoC1place "ash" (0, 1)

/-- C1 counterexample: after placing "ash" at (0,0) and recording one move to
(0,1) — a reachable two-operation sequence — cell (0,0) still shows "ash" on
the `BOARD` but neither reverse index has an entry for it, so the claimed
occupied-cell/reverse-index bijection is false. -/
theorem C1_counterexample :
    Reachable demoC1 ∧ demoC1.board (0, 0) = "ash" ∧
    alLookup demoC1.playerLocations (0, 0) = none ∧
    alLookup demoC1.pokemonLocations (0, 0) = none ∧ ¬ FullGridInv demoC1 := by
  refine ⟨?_, by decide, by decide, by decide, ?_⟩
  · exact Reachable.step
      (Reachable.step Reachable.init
        (Step.place initState (0, 0) "ash" (by decide) (by decide) rfl (by decide) (by decide)))
      (Step.move demoC1place "ash" (0, 1) (by decide) (by decide))
  · rintro ⟨-, -, h3, -, -⟩
    rcases h3 (0, 0) (by decide) with hcase | hcase
    · exact absurd hcase (by decide)
    · exact absurd hcase (by decide)

theorem goIndex_some_bounds {α : Type} {xs : List α} {i : Int} {a : α}
    (h : goIndex xs i = some a) :
    0 ≤ i ∧ i.toNat < xs.length ∧ xs.get? i.toNat = some a := by
  unfold goIndex at h
  by_cases hi : i < 0
  · rw [if_pos hi] at h; cases h
  · rw [if_neg hi] at h
    exact ⟨le_of_not_lt hi, (List.get?_eq_some.mp h).choose, h⟩

/-- Full characterization of `attackEnemy` on a call whose attacker index is
in range and whose defending team is nonempty, in terms of the attacker `A`
and the clamped-index defender `D`. -/
theorem attackEnemy_valid (atkTeam defTeam : List Pokemon) (ai di : Int) (dp : String)
    (A D : Pokemon) (dIdx atk dfn hp dmg : Int)
    (hai0 : 0 ≤ ai) (hai : ai < (atkTeam.length : Int)) (hne : defTeam ≠ [])
    (hA : goIndex atkTeam ai = some A)
    (hidx : dIdx = if di ≥ (defTeam.length : Int) then 0 else di)
    (hD : goIndex defTeam dIdx = some D)
    (hatk : atk = goAtoi (goMapGet A.stats "Attack"))
    (hdfn : dfn = goAtoi (goMapGet D.stats "Defense"))
    (hhp : hp = goAtoi (goMapGet D.stats "HP"))
    (hdmg : dmg = if atk * 50 - dfn < 1 then 1 else atk * 50 - dfn) :
    attackEnemy atkTeam defTeam ai di dp =
      if hp - dmg ≤ 0 then
        some (defTeam.take dIdx.toNat ++ defTeam.drop (dIdx.toNat + 1),
              [(dp, attackedMsg 0 dmg dIdx)])
      else
        some (defTeam.set dIdx.toNat { D with stats := alSet D.stats "HP" (toString (hp - dmg)) },
              [(dp, attackedMsg (hp - dmg) dmg dIdx)]) := by
  have hguard : ¬(ai < 0 ∨ ai ≥ (atkTeam.length : Int) ∨ defTeam.length = 0) := by
    push_neg
    exact ⟨hai0, hai, fun hc => hne (List.length_eq_zero.mp hc)⟩
  subst hidx hatk hdfn hhp hdmg
  unfold attackEnemy
  rw [if_neg hguard]
  simp only [hD, hA, Option.getD_some]

theorem isSome_ite_some {α : Type} (c : Prop) [Decidable c] (x y : α) :
    (if c then some x else some y).isSome = true := by
  split <;> rfl

theorem goIndex_isSome {α : Type} (xs : List α) (i : Int) (h0 : 0 ≤ i)
    (hlt : i.toNat < xs.length) : ∃ a, goIndex xs i = some a := by
  unfold goIndex
  rw [if_neg (not_lt.mpr h0)]
  cases hc : xs.get? i.toNat with
  | none => rw [List.get?_eq_none] at hc; omega
  | some a => exact ⟨a, rfl⟩

/-- C3: for every attack that is carried out (attacker slot in range,
defending roster nonempty), the damage is the attacker's Attack times the
fixed multiplier 50 minus the defender's Defense, floored at 1 — so it is at
least 1 for any Attack/Defense values — and that damage is subtracted from
the defending creature's current HP (stored back when the result is
positive, reported as 0 otherwise). -/
theorem C3_attack_damage_formula (atkTeam defTeam : List Pokemon) (ai di : Int) (dp : String)
    (A D : Pokemon) (dIdx atk dfn hp dmg : Int)
    (hai0 : 0 ≤ ai) (hai : ai < (atkTeam.length : Int)) (hne : defTeam ≠ [])
    (hA : goIndex atkTeam ai = some A)
    (hidx : dIdx = if di ≥ (defTeam.length : Int) then 0 else di)
    (hD : goIndex defTeam dIdx = some D)
    (hatk : atk = goAtoi (goMapGet A.stats "Attack"))
    (hdfn : dfn = goAtoi (goMapGet D.stats "Defense"))
    (hhp : hp = goAtoi (goMapGet D.stats "HP"))
    (hdmg : dmg = if atk * 50 - dfn < 1 then 1 else atk * 50 - dfn) :
    1 ≤ dmg ∧ dmg = max (atk * 50 - dfn) 1 ∧
    attackEnemy atkTeam defTeam ai di dp =
      if hp - dmg ≤ 0 then
        some (defTeam.take dIdx.toNat ++ defTeam.drop (dIdx.toNat + 1),
              [(dp, attackedMsg 0 dmg dIdx)])
      else
        some (defTeam.set dIdx.toNat { D with stats := alSet D.stats "HP" (toString (hp - dmg)) },
              [(dp, attackedMsg (hp - dmg) dmg dIdx)]) := by
  refine ⟨?_, ?_, attackEnemy_valid atkTeam defTeam ai di dp A D dIdx atk dfn hp dmg
    hai0 hai hne hA hidx hD hatk hdfn hhp hdmg⟩
  · rw [hdmg]; split <;> omega
  · rw [hdmg]
    rcases max_cases (atk * 50 - dfn) 1 with ⟨hmx, hc⟩ | ⟨hmx, hc⟩ <;> rw [hmx] <;> split <;> omega

def demoAtkPoke : Pokemon :=
  ⟨"66", "Machop", ["fighting"], [("HP", "70"), ("Attack", "1"), ("Defense", "30"), ("Speed", "35")], "61"⟩

def demoDefPoke : Pokemon :=
  ⟨"95", "Onix", ["rock"], [("HP", "35"), ("Attack", "45"), ("Defense", "1000"), ("Speed", "70")], "77"⟩

theorem C3_attack_damage_formula_witness :
    attackEnemy [demoAtkPoke] [demoDefPoke] 0 0 "gary" =
      some ([{ demoDefPoke with stats := alSet demoDefPoke.stats "HP" "34" }],
            [("gary", "attacked-34-1-0")]) ∧ 1 ≤ (1 : Int) := by
  have h := C3_attack_damage_formula [demoAtkPoke] [demoDefPoke] 0 0 "gary"
    demoAtkPoke demoDefPoke 0 1 1000 35 1 (by decide) (by decide) (by decide)
    (by decide) (by decide) (by decide) (by decide) (by decide) (by decide) (by decide)
  refine ⟨?_, h.1⟩
  rw [h.2.2]
  decide

/-- C4: for every attack that is carried out, if it drives the defender's HP
to 0 or below then the message reports HP exactly 0 and the creature is
removed from the defending roster with every later slot shifting down by
one; if HP stays positive the creature's HP is updated in place and the
roster keeps its length and the order of all other slots. -/
theorem C4_faint_removal (atkTeam defTeam : List Pokemon) (ai di : Int) (dp : String)
    (A D : Pokemon) (dIdx atk dfn hp dmg : Int)
    (hai0 : 0 ≤ ai) (hai : ai < (atkTeam.length : Int)) (hne : defTeam ≠ [])
    (hA : goIndex atkTeam ai = some A)
    (hidx : dIdx = if di ≥ (defTeam.length : Int) then 0 else di)
    (hD : goIndex defTeam dIdx = some D)
    (hatk : atk = goAtoi (goMapGet A.stats "Attack"))
    (hdfn : dfn = goAtoi (goMapGet D.stats "Defense"))
    (hhp : hp = goAtoi (goMapGet D.stats "HP"))
    (hdmg : dmg = if atk * 50 - dfn < 1 then 1 else atk * 50 - dfn) :
    (hp - dmg ≤ 0 →
      attackEnemy atkTeam defTeam ai di dp =
        some (defTeam.take dIdx.toNat ++ defTeam.drop (dIdx.toNat + 1),
              [(dp, attackedMsg 0 dmg dIdx)]) ∧
      (defTeam.take dIdx.toNat ++ defTeam.drop (dIdx.toNat + 1)).length + 1 = defTeam.length ∧
      (∀ j : Nat, j < dIdx.toNat →
        (defTeam.take dIdx.toNat ++ defTeam.drop (dIdx.toNat + 1)).get? j = defTeam.get? j) ∧
      (∀ j : Nat, dIdx.toNat ≤ j →
        (defTeam.take dIdx.toNat ++ defTeam.drop (dIdx.toNat + 1)).get? j = defTeam.get? (j + 1))) ∧
    (0 < hp - dmg →
      attackEnemy atkTeam defTeam ai di dp =
        some (defTeam.set dIdx.toNat { D with stats := alSet D.stats "HP" (toString (hp - dmg)) },
              [(dp, attackedMsg (hp - dmg) dmg dIdx)]) ∧
      (defTeam.set dIdx.toNat { D with stats := alSet D.stats "HP" (toString (hp - dmg)) }).length
        = defTeam.length ∧
      ∀ j : Nat, j ≠ dIdx.toNat →
        (defTeam.set dIdx.toNat
          { D with stats := alSet D.stats "HP" (toString (hp - dmg)) }).get? j = defTeam.get? j) := by
  have hspec := attackEnemy_valid atkTeam defTeam ai di dp A D dIdx atk dfn hp dmg
    hai0 hai hne hA hidx hD hatk hdfn hhp hdmg
  have hdlt : dIdx.toNat < defTeam.length := (goIndex_some_bounds hD).2.1
  have htklen : (defTeam.take dIdx.toNat).length = dIdx.toNat :=
    List.length_take_of_le (le_of_lt hdlt)
  constructor
  · intro hfaint
    refine ⟨by rw [hspec, if_pos hfaint], ?_, ?_, ?_⟩
    · simp only [List.length_append, List.length_take, List.length_drop]
      omega
    · intro j hj
      rw [List.get?_eq_getElem?, List.get?_eq_getElem?,
        List.getElem?_append_left (by omega),
        List.getElem?_take_of_lt hj]
    · intro j hj
      rw [List.get?_eq_getElem?, List.get?_eq_getElem?,
        List.getElem?_append_right (by omega), List.getElem?_drop]
      congr 1
      omega
  · intro halive
    refine ⟨by rw [hspec, if_neg (by omega)], List.length_set defTeam dIdx.toNat _, ?_⟩
    intro j hj
    rw [List.get?_eq_getElem?, List.get?_eq_getElem?, List.getElem?_set_ne (Ne.symm hj)]

def demo2AtkPoke : Pokemon :=
  ⟨"25", "Pikachu", ["electric"], [("HP", "60"), ("Attack", "2"), ("Defense", "40"), ("Speed", "90")], "112"⟩

def demo2DefPoke : Pokemon :=
  ⟨"7", "Squirtle", ["water"], [("HP", "30"), ("Attack", "48"), ("Defense", "10"), ("Speed", "43")], "63"⟩

theorem C4_faint_removal_witness :
    attackEnemy [demo2AtkPoke] [demo2DefPoke] 0 0 "gary" =
      some ([], [("gary", "attacked-0-90-0")]) := by
  have h := C4_faint_removal [demo2AtkPoke] [demo2DefPoke] 0 0 "gary"
    demo2AtkPoke demo2DefPoke 0 2 10 30 90 (by decide) (by decide) (by decide)
    (by decide) (by decide) (by decide) (by decide) (by decide) (by decide) (by decide)
  have h2 := (h.1 (by decide)).1
  rw [h2]
  decide

/-- C10: `attackEnemy` guards its roster accesses: a negative or too-large
attacker index, or an empty defending roster, makes the call a pure no-op
with no message; any call with a non-negative defender index produces a
result (no out-of-range access); and a defender index at or past the roster
size is redirected to slot 0. -/
theorem C10_attackEnemy_bounds (atkTeam defTeam : List Pokemon) (ai di : Int) (dp : String) :
    ((ai < 0 ∨ ai ≥ (atkTeam.length : Int) ∨ defTeam = []) →
      attackEnemy atkTeam defTeam ai di dp = some (defTeam, [])) ∧
    (0 ≤ di → (attackEnemy atkTeam defTeam ai di dp).isSome = true) ∧
    (di ≥ (defTeam.length : Int) →
      attackEnemy atkTeam defTeam ai di dp = attackEnemy atkTeam defTeam ai 0 dp) := by
  refine ⟨?_, ?_, ?_⟩
  · intro hcase
    have hg : ai < 0 ∨ ai ≥ (atkTeam.length : Int) ∨ defTeam.length = 0 := by
      rcases hcase with h | h | h
      · exact Or.inl h
      · exact Or.inr (Or.inl h)
      · exact Or.inr (Or.inr (by rw [h]; rfl))
    unfold attackEnemy
    rw [if_pos hg]
  · intro hdi
    by_cases hg : ai < 0 ∨ ai ≥ (atkTeam.length : Int) ∨ defTeam.length = 0
    · unfold attackEnemy; rw [if_pos hg]; rfl
    · have hg' := hg; push_neg at hg'
      obtain ⟨hg0, hg1, hg2⟩ := hg'
      have hne : defTeam ≠ [] := fun hc => hg2 (by rw [hc]; rfl)
      obtain ⟨A, hA⟩ := goIndex_isSome atkTeam ai hg0 (by omega)
      have hd0 : (0 : Int) ≤ (if di ≥ (defTeam.length : Int) then 0 else di) := by
        split <;> omega
      have hdlt : (if di ≥ (defTeam.length : Int) then 0 else di).toNat < defTeam.length := by
        split <;> omega
      obtain ⟨D, hD⟩ := goIndex_isSome defTeam _ hd0 hdlt
      rw [attackEnemy_valid atkTeam defTeam ai di dp A D _ _ _ _ _ hg0 hg1 hne hA rfl hD
        rfl rfl rfl rfl]
      exact isSome_ite_some _ _ _
  · intro hge
    by_cases hg : ai < 0 ∨ ai ≥ (atkTeam.length : Int) ∨ defTeam.length = 0
    · unfold attackEnemy; rw [if_pos hg, if_pos hg]
    · have hg' := hg; push_neg at hg'
      obtain ⟨hg0, hg1, hg2⟩ := hg'
      have hne : defTeam ≠ [] := fun hc => hg2 (by rw [hc]; rfl)
      obtain ⟨A, hA⟩ := goIndex_isSome atkTeam ai hg0 (by omega)
      obtain ⟨D, hD⟩ := goIndex_isSome defTeam 0 le_rfl (by omega)
      rw [attackEnemy_valid atkTeam defTeam ai di dp A D 0 _ _ _ _ hg0 hg1 hne hA
          (if_pos hge).symm hD rfl rfl rfl rfl,
        attackEnemy_valid atkTeam defTeam ai 0 dp A D 0 _ _ _ _ hg0 hg1 hne hA
          (by split <;> rfl) hD rfl rfl rfl rfl]

theorem C10_attackEnemy_bounds_witness :
    attackEnemy [] [demoDefPoke] 5 0 "gary" = some ([demoDefPoke], []) ∧
    (attackEnemy [demoAtkPoke] [demoDefPoke] 0 3 "gary").isSome = true ∧
    attackEnemy [demoAtkPoke] [demoDefPoke] 0 3 "gary" =
      attackEnemy [demoAtkPoke] [demoDefPoke] 0 0 "gary" :=
  ⟨(C10_attackEnemy_bounds [] [demoDefPoke] 5 0 "gary").1 (Or.inr (Or.inl (by decide))),
   (C10_attackEnemy_bounds [demoAtkPoke] [demoDefPoke] 0 3 "gary").2.1 (by decide),
   (C10_attackEnemy_bounds [demoAtkPoke] [demoDefPoke] 0 3 "gary").2.2 (by decide)⟩

/-- C2: when both rosters reach size 3 and the battle starts, the slot-0
Speed stats are compared: strictly higher acts first, a tie goes to P1 — and
`initiateBattle` stores the mover (the player who stepped onto the other) as
P1. The non-active participant is sent "wait", the active one the your-turn
message naming it. -/
theorem C2_turn_order (bs : BattleState) (s1 s2 : Int)
    (h1 : bs.pokeBalls_P1.length = 3) (h2 : bs.pokeBalls_P2.length = 3)
    (hs1 : s1 = goAtoi (goMapGet (bs.pokeBalls_P1.headD emptyPokemon).stats "Speed"))
    (hs2 : s2 = goAtoi (goMapGet (bs.pokeBalls_P2.headD emptyPokemon).stats "Speed")) :
    (s2 < s1 →
      battleStartCheck bs =
        ({ bs with player1Turn := true }, [(bs.P1, bs.P1), (bs.P2, "wait")])) ∧
    (s1 < s2 →
      battleStartCheck bs =
        ({ bs with player1Turn := false }, [(bs.P2, bs.P2), (bs.P1, "wait")])) ∧
    (s1 = s2 →
      battleStartCheck bs =
        ({ bs with player1Turn := true }, [(bs.P1, bs.P1), (bs.P2, "wait")])) ∧
    (∀ (bs0 : BattleState) (mover enemy : String),
      (initiateBattle bs0 mover enemy).1.P1 = mover ∧
      (initiateBattle bs0 mover enemy).1.P2 = enemy ∧
      (initiateBattle bs0 mover enemy).1.player1Turn = true) := by
  subst hs1 hs2
  refine ⟨?_, ?_, ?_, fun bs0 mover enemy => ⟨rfl, rfl, rfl⟩⟩
  · intro hcase
    unfold battleStartCheck
    rw [if_pos (And.intro h1 h2)]
    exact if_pos (le_of_lt hcase)
  · intro hcase
    unfold battleStartCheck
    rw [if_pos (And.intro h1 h2)]
    exact if_neg (not_le.mpr hcase)
  · intro hcase
    unfold battleStartCheck
    rw [if_pos (And.intro h1 h2)]
    exact if_pos (le_of_eq hcase.symm)

def demoFastPoke : Pokemon :=
  ⟨"6", "Charizard", ["fire"], [("HP", "78"), ("Attack", "84"), ("Defense", "78"), ("Speed", "80")], "240"⟩

def demoSlowPoke : Pokemon :=
  ⟨"9", "Blastoise", ["water"], [("HP", "79"), ("Attack", "83"), ("Defense", "100"), ("Speed", "60")], "239"⟩

def demoBS : BattleState :=
  ⟨[demoFastPoke, demoAtkPoke, demo2AtkPoke], [demoSlowPoke, demoDefPoke, demo2DefPoke],
    0, 0, "ash", "gary", true⟩

theorem C2_turn_order_witness :
    battleStartCheck demoBS =
      ({ demoBS with player1Turn := true }, [("ash", "ash"), ("gary", "wait")]) := by
  have h := C2_turn_order demoBS 80 60 (by decide) (by decide) (by decide) (by decide)
  rw [h.1 (by decide)]
  decide

/-- Any valid attack produces exactly one `attacked-...` message to the
defending player. -/
theorem attackEnemy_msg_shape (atkTeam defTeam : List Pokemon) (ai di : Int) (dp : String)
    (h0 : 0 ≤ ai) (h1 : ai < (atkTeam.length : Int)) (hne : defTeam ≠ []) (hdi : 0 ≤ di) :
    ∃ newDef hp dmg slot,
      attackEnemy atkTeam defTeam ai di dp = some (newDef, [(dp, attackedMsg hp dmg slot)]) := by
  have hlen0 : defTeam.length ≠ 0 := fun hc => hne (List.length_eq_zero.mp hc)
  obtain ⟨A, hA⟩ := goIndex_isSome atkTeam ai h0 (by omega)
  have hd0 : (0 : Int) ≤ (if di ≥ (defTeam.length : Int) then 0 else di) := by
    split <;> omega
  have hdlt : (if di ≥ (defTeam.length : Int) then 0 else di).toNat < defTeam.length := by
    split <;> omega
  obtain ⟨D, hD⟩ := goIndex_isSome defTeam _ hd0 hdlt
  rw [attackEnemy_valid atkTeam defTeam ai di dp A D _ _ _ _ _ h0 h1 hne hA rfl hD
    rfl rfl rfl rfl]
  by_cases hcond : goAtoi (goMapGet D.stats "HP") -
      (if goAtoi (goMapGet A.stats "Attack") * 50 - goAtoi (goMapGet D.stats "Defense") < 1
       then 1
       else goAtoi (goMapGet A.stats "Attack") * 50 - goAtoi (goMapGet D.stats "Defense")) ≤ 0
  · rw [if_pos hcond]; exact ⟨_, _, _, _, rfl⟩
  · rw [if_neg hcond]; exact ⟨_, _, _, _, rfl⟩

theorem handleBattleAction_attack_owner_P1 (bs : BattleState) (cp s0 s1 mm : String)
    (hsplit : goSplit mm '*' = [s0, s1]) (haction : goTrim s1 = "attack")
    (hturn : bs.player1Turn = true) (hcp : cp = bs.P1) :
    handleBattleAction bs cp mm =
      (attackEnemy bs.pokeBalls_P1 bs.pokeBalls_P2 (goAtoi s0) bs.currentDefIndex_P2 bs.P2).map
        (fun r => ({ bs with pokeBalls_P2 := r.1, player1Turn := false },
                   r.2 ++ [(bs.P1, "wait"), (bs.P2, bs.P2)])) := by
  cases hAE : attackEnemy bs.pokeBalls_P1 bs.pokeBalls_P2 (goAtoi s0) bs.currentDefIndex_P2 bs.P2 with
  | none => simp [handleBattleAction, hsplit, haction, hturn, hcp, hAE]
  | some r =>
    obtain ⟨newDef, msgs⟩ := r
    simp [handleBattleAction, hsplit, haction, hturn, hcp, hAE]

theorem handleBattleAction_attack_owner_P2 (bs : BattleState) (cp s0 s1 mm : String)
    (hsplit : goSplit mm '*' = [s0, s1]) (haction : goTrim s1 = "attack")
    (hturn : bs.player1Turn = false) (hcp : cp = bs.P2) :
    handleBattleAction bs cp mm =
      (attackEnemy bs.pokeBalls_P2 bs.pokeBalls_P1 (goAtoi s0) bs.currentDefIndex_P1 bs.P1).map
        (fun r => ({ bs with pokeBalls_P1 := r.1, player1Turn := true },
                   r.2 ++ [(bs.P2, "wait"), (bs.P1, bs.P1)])) := by
  cases hAE : attackEnemy bs.pokeBalls_P2 bs.pokeBalls_P1 (goAtoi s0) bs.currentDefIndex_P1 bs.P1 with
  | none => simp [handleBattleAction, hsplit, haction, hturn, hcp, hAE]
  | some r =>
    obtain ⟨newDef, msgs⟩ := r
    simp [handleBattleAction, hsplit, haction, hturn, hcp, hAE]

theorem handleBattleAction_switch_eq (bs : BattleState) (cp s0 s1 mm : String)
    (hsplit : goSplit mm '*' = [s0, s1]) (haction : goTrim s1 = "switch") :
    handleBattleAction bs cp mm =
      some ((if bs.player1Turn then { bs with currentDefIndex_P1 := goAtoi s0 }
             else { bs with currentDefIndex_P2 := goAtoi s0 }), []) := by
  by_cases ht : bs.player1Turn = true <;>
    simp [handleBattleAction, hsplit, haction, ht]

/-- C5 (amended): after an attack action submitted by the current turn owner
WITH an in-range attacker slot and a nonempty opposing roster, the defender
is sent `attacked-<newHP>-<damage>-<defenderSlot>`, the turn flips to the
defender (who is sent the your-turn message naming them), and the attacker
is told to wait. (Without the in-range/nonempty proviso the claim is false:
the turn still flips and wait/your-turn are still sent, but no attacked
message is produced — see the counterexample.) -/
theorem C5_attack_flow (bs : BattleState) (cp s0 s1 mm : String) (ai : Int)
    (hsplit : goSplit mm '*' = [s0, s1]) (haction : goTrim s1 = "attack")
    (hai : goAtoi s0 = ai) :
    (bs.player1Turn = true → cp = bs.P1 → 0 ≤ ai → ai < (bs.pokeBalls_P1.length : Int) →
      bs.pokeBalls_P2 ≠ [] → 0 ≤ bs.currentDefIndex_P2 →
      ∃ newDef hp dmg slot,
        attackEnemy bs.pokeBalls_P1 bs.pokeBalls_P2 ai bs.currentDefIndex_P2 bs.P2 =
          some (newDef, [(bs.P2, attackedMsg hp dmg slot)]) ∧
        handleBattleAction bs cp mm =
          some ({ bs with pokeBalls_P2 := newDef, player1Turn := false },
                [(bs.P2, attackedMsg hp dmg slot), (bs.P1, "wait"), (bs.P2, bs.P2)])) ∧
    (bs.player1Turn = false → cp = bs.P2 → 0 ≤ ai → ai < (bs.pokeBalls_P2.length : Int) →
      bs.pokeBalls_P1 ≠ [] → 0 ≤ bs.currentDefIndex_P1 →
      ∃ newDef hp dmg slot,
        attackEnemy bs.pokeBalls_P2 bs.pokeBalls_P1 ai bs.currentDefIndex_P1 bs.P1 =
          some (newDef, [(bs.P1, attackedMsg hp dmg slot)]) ∧
        handleBattleAction bs cp mm =
          some ({ bs with pokeBalls_P1 := newDef, player1Turn := true },
                [(bs.P1, attackedMsg hp dmg slot), (bs.P2, "wait"), (bs.P1, bs.P1)])) := by
  subst hai
  constructor
  · intro hturn hcp h0 h1 hne hdi
    obtain ⟨newDef, hp, dmg, slot, hAE⟩ :=
      attackEnemy_msg_shape bs.pokeBalls_P1 bs.pokeBalls_P2 (goAtoi s0)
        bs.currentDefIndex_P2 bs.P2 h0 h1 hne hdi
    refine ⟨newDef, hp, dmg, slot, hAE, ?_⟩
    rw [handleBattleAction_attack_owner_P1 bs cp s0 s1 mm hsplit haction hturn hcp, hAE]
    rfl
  · intro hturn hcp h0 h1 hne hdi
    obtain ⟨newDef, hp, dmg, slot, hAE⟩ :=
      attackEnemy_msg_shape bs.pokeBalls_P2 bs.pokeBalls_P1 (goAtoi s0)
        bs.currentDefIndex_P1 bs.P1 h0 h1 hne hdi
    refine ⟨newDef, hp, dmg, slot, hAE, ?_⟩
    rw [handleBattleAction_attack_owner_P2 bs cp s0 s1 mm hsplit haction hturn hcp, hAE]
    rfl

theorem C5_attack_flow_witness :
    handleBattleAction demoBS "ash" "0*attack" =
      some ({ demoBS with pokeBalls_P2 := [demoDefPoke, demo2DefPoke], player1Turn := false },
            [("gary", "attacked-0-4100-0"), ("ash", "wait"), ("gary", "gary")]) ∧
    (∃ newDef hp dmg slot,
      attackEnemy demoBS.pokeBalls_P1 demoBS.pokeBalls_P2 0 demoBS.currentDefIndex_P2 demoBS.P2 =
        some (newDef, [(demoBS.P2, attackedMsg hp dmg slot)]) ∧
      handleBattleAction demoBS "ash" "0*attack" =
        some ({ demoBS with pokeBalls_P2 := newDef, player1Turn := false },
              [(demoBS.P2, attackedMsg hp dmg slot), (demoBS.P1, "wait"), (demoBS.P2, demoBS.P2)])) :=
  ⟨by decide,
   (C5_attack_flow demoBS "ash" "0" "attack" "0*attack" 0 (by decide) (by decide)
      (by decide)).1 rfl rfl (by decide) (by decide) (by decide) (by decide)⟩

/-- C5 counterexample: "ash" owns the turn and submits an attack with slot 5
on a roster of 3. No `attacked-...` message is sent to the defender at all,
yet the turn still flips to "gary" and the wait/your-turn notices still go
out — contradicting the claim that every owner-submitted attack action sends
the defender an attacked message. -/
theorem C5_counterexample :
    handleBattleAction demoBS "ash" "5*attack" =
      some ({ demoBS with player1Turn := false }, [("ash", "wait"), ("gary", "gary")]) ∧
    demoBS.player1Turn = true ∧
    (∀ p ∈ ([("ash", "wait"), ("gary", "gary")] : List Msg), p.2.take 9 ≠ "attacked-") := by
  decide

/-- C6 (amended): a switch action updates the CURRENT TURN OWNER's
active-slot index to the given slot, whoever submitted it (the submitter is
never consulted); it passes no turn, sends no message to either participant,
and leaves both rosters unchanged. The original claim — that the SUBMITTING
participant's index is updated — fails when the submitter is not the turn
owner (see the counterexample). -/
theorem C6_switch_updates_turn_owner (bs : BattleState) (cp s0 s1 mm : String)
    (hsplit : goSplit mm '*' = [s0, s1]) (haction : goTrim s1 = "switch") :
    handleBattleAction bs cp mm =
      some ((if bs.player1Turn then { bs with currentDefIndex_P1 := goAtoi s0 }
             else { bs with currentDefIndex_P2 := goAtoi s0 }), []) ∧
    (∀ bs2 msgs, handleBattleAction bs cp mm = some (bs2, msgs) →
      msgs = [] ∧ bs2.player1Turn = bs.player1Turn ∧
      bs2.pokeBalls_P1 = bs.pokeBalls_P1 ∧ bs2.pokeBalls_P2 = bs.pokeBalls_P2 ∧
      (bs.player1Turn = true → bs2.currentDefIndex_P1 = goAtoi s0 ∧
        bs2.currentDefIndex_P2 = bs.currentDefIndex_P2) ∧
      (bs.player1Turn = false → bs2.currentDefIndex_P2 = goAtoi s0 ∧
        bs2.currentDefIndex_P1 = bs.currentDefIndex_P1)) := by
  have hmain := handleBattleAction_switch_eq bs cp s0 s1 mm hsplit haction
  refine ⟨hmain, ?_⟩
  intro bs2 msgs h
  rw [hmain] at h
  obtain ⟨h1, h2⟩ := Prod.mk.injEq .. ▸ Option.some.inj h
  by_cases ht : bs.player1Turn = true
  · rw [if_pos ht] at h1
    subst h1
    exact ⟨h2.symm, rfl, rfl, rfl, fun _ => ⟨rfl, rfl⟩,
      fun hf => absurd (ht.symm.trans hf) (by decide)⟩
  · rw [if_neg ht] at h1
    subst h1
    refine ⟨h2.symm, rfl, rfl, rfl, fun htr => absurd htr ht, fun _ => ⟨rfl, rfl⟩⟩

theorem C6_switch_updates_turn_owner_witness :
    handleBattleAction demoBS "ash" "2*switch" =
      some ({ demoBS with currentDefIndex_P1 := 2 }, []) ∧
    ({ demoBS with currentDefIndex_P1 := 2 } : BattleState).player1Turn = demoBS.player1Turn ∧
    ({ demoBS with currentDefIndex_P1 := 2 } : BattleState).pokeBalls_P1 = demoBS.pokeBalls_P1 ∧
    ({ demoBS with currentDefIndex_P1 := 2 } : BattleState).pokeBalls_P2 = demoBS.pokeBalls_P2 := by
  have h := C6_switch_updates_turn_owner demoBS "ash" "2" "switch" "2*switch"
    (by decide) (by decide)
  have h1 : handleBattleAction demoBS "ash" "2*switch" =
      some ({ demoBS with currentDefIndex_P1 := 2 }, []) := by
    rw [h.1]; decide
  obtain ⟨-, h2, h3, h4, -, -⟩ := h.2 _ _ h1
  exact ⟨h1, h2, h3, h4⟩

/-- C6 counterexample: "gary" (P2) submits `2*switch` while it is P1's turn.
The submitting participant's own active-slot index stays 0; instead the TURN
OWNER's ("ash", P1) index becomes 2 — so the claim that every switch updates
the submitter's active-slot index is false. -/
theorem C6_counterexample :
    handleBattleAction demoBS "gary" "2*switch" =
      some ({ demoBS with currentDefIndex_P1 := 2 }, []) ∧
    demoBS.P2 = "gary" ∧ demoBS.player1Turn = true ∧
    ({ demoBS with currentDefIndex_P1 := 2 } : BattleState).currentDefIndex_P2 =
      demoBS.currentDefIndex_P2 ∧
    ({ demoBS with currentDefIndex_P1 := 2 } : BattleState).currentDefIndex_P1 = 2 ∧
    demoBS.currentDefIndex_P2 ≠ 2 := by
  decide

/-- C8 (amended): an ATTACK action submitted by a participant who does not
own the turn is rejected as a no-op (state unchanged, no message). But a
roster submission beyond the third creature is NOT rejected: `submitPokemon`
has no size check and appends unconditionally for the matching side, and a
switch by a non-owner mutates the turn owner's slot index (see C6). -/
theorem C8_rejections (POKE : List Pokemon) (bs : BattleState)
    (cp s0 s1 mm pid : String) (p : Pokemon)
    (hsplit : goSplit mm '*' = [s0, s1]) :
    (goTrim s1 = "attack" → bs.player1Turn = true → cp ≠ bs.P1 →
      handleBattleAction bs cp mm = some (bs, [])) ∧
    (goTrim s1 = "attack" → bs.player1Turn = false → cp ≠ bs.P2 →
      handleBattleAction bs cp mm = some (bs, [])) ∧
    (POKE.find? (fun q => decide (q.id = pid)) = some p → cp = bs.P1 →
      submitPokemon POKE bs cp pid = { bs with pokeBalls_P1 := bs.pokeBalls_P1 ++ [p] }) ∧
    (POKE.find? (fun q => decide (q.id = pid)) = some p → cp ≠ bs.P1 → cp = bs.P2 →
      submitPokemon POKE bs cp pid = { bs with pokeBalls_P2 := bs.pokeBalls_P2 ++ [p] }) := by
  refine ⟨?_, ?_, ?_, ?_⟩
  · intro haction hturn hcp
    simp [handleBattleAction, hsplit, haction, hturn, hcp]
  · intro haction hturn hcp
    simp [handleBattleAction, hsplit, haction, hturn, hcp]
  · intro hfind hcp
    simp [submitPokemon, hfind, hcp]
  · intro hfind hcp1 hcp2
    simp [submitPokemon, hfind, hcp1, hcp2]
    exact fun hc => hcp1 (hcp2.trans hc)

def demoPokedex : List Pokemon :=
  [demoFastPoke, demoSlowPoke, demoAtkPoke, demoDefPoke, demo2AtkPoke, demo2DefPoke]

theorem C8_rejections_witness :
    handleBattleAction demoBS "gary" "0*attack" = some (demoBS, []) ∧
    submitPokemon demoPokedex demoBS "ash" "66" =
      { demoBS with pokeBalls_P1 := demoBS.pokeBalls_P1 ++ [demoAtkPoke] } := by
  have h1 := C8_rejections demoPokedex demoBS "gary" "0" "attack" "0*attack" "66"
    demoAtkPoke (by decide)
  have h2 := C8_rejections demoPokedex demoBS "ash" "0" "attack" "0*attack" "66"
    demoAtkPoke (by decide)
  exact ⟨h1.1 (by decide) rfl (by decide), h2.2.2.1 (by decide) rfl⟩

/-- C8 counterexample: with both rosters already full (3 creatures each), a
fourth submission by "ash" is appended — the roster grows to 4 instead of
being rejected — and a switch submitted by "gary", who does not own the
turn, still mutates shared state (the turn owner's slot index becomes 1). -/
theorem C8_counterexample :
    (submitPokemon demoPokedex demoBS "ash" "66").pokeBalls_P1.length = 4 ∧
    demoBS.pokeBalls_P1.length = 3 ∧
    handleBattleAction demoBS "gary" "1*switch" =
      some ({ demoBS with currentDefIndex_P1 := 1 }, []) ∧
    demoBS.player1Turn = true ∧ demoBS.P2 = "gary" ∧
    ({ demoBS with currentDefIndex_P1 := 1 } : BattleState) ≠ demoBS := by
  decide

theorem foldl_clearLoc_board (locs : List Loc) (s : ServerState) (l : Loc) :
    (locs.foldl clearLoc s).board l = if l ∈ locs then "" else s.board l := by
  induction locs generalizing s with
  | nil => simp
  | cons a t ih =>
    rw [List.foldl_cons, ih]
    by_cases hl : l ∈ t
    · simp [hl]
    · by_cases hla : l = a
      · subst hla; simp [hl, clearLoc, setCell]
      · simp [hl, hla, clearLoc, setCell]

theorem foldl_clearLoc_lookup (locs : List Loc) (s : ServerState) (l : Loc) :
    alLookup (locs.foldl clearLoc s).pokemonLocations l =
      if l ∈ locs then none else alLookup s.pokemonLocations l := by
  induction locs generalizing s with
  | nil => simp
  | cons a t ih =>
    rw [List.foldl_cons, ih]
    by_cases hl : l ∈ t
    · simp [hl]
    · by_cases hla : l = a
      · subst hla; simp [hl, clearLoc, alLookup_alDel_self]
      · simp [hl, hla, clearLoc, alLookup_alDel_ne _ hla]

theorem foldl_clearLoc_player (locs : List Loc) (s : ServerState) :
    (locs.foldl clearLoc s).playerLocations = s.playerLocations := by
  induction locs generalizing s with
  | nil => rfl
  | cons a t ih => rw [List.foldl_cons, ih]; rfl

/-- C9: the spawn queue is FIFO. Each spawn appends its cell to the queue
(so spawning a list of draws appends their cells in order); a despawn tick
with fewer than 5 queued entries changes nothing; a tick with at least 5
pops exactly the 5 oldest entries in queue order, clears exactly those cells
from `BOARD` and from `POKEMON_LOCATIONS` (idempotently — they end empty
whatever they held), broadcasts `{location: ""}` for them in that order, and
touches no other cell or index entry. -/
theorem C9_despawn_fifo (s : ServerState) :
    (s.despawnQueues.length < NUMBERTOPROCESS → despawnTick s = (s, [])) ∧
    (NUMBERTOPROCESS ≤ s.despawnQueues.length →
      (despawnTick s).1.despawnQueues = s.despawnQueues.drop NUMBERTOPROCESS ∧
      (despawnTick s).2 = (s.despawnQueues.take NUMBERTOPROCESS).map (fun l => (l, "")) ∧
      (∀ l ∈ s.despawnQueues.take NUMBERTOPROCESS,
        (despawnTick s).1.board l = "" ∧
        alLookup (despawnTick s).1.pokemonLocations l = none) ∧
      (∀ l, l ∉ s.despawnQueues.take NUMBERTOPROCESS →
        (despawnTick s).1.board l = s.board l ∧
        alLookup (despawnTick s).1.pokemonLocations l = alLookup s.pokemonLocations l) ∧
      (despawnTick s).1.playerLocations = s.playerLocations) ∧
    (∀ (loc : Loc) (pid : String),
      (spawnPokemon s loc pid).despawnQueues = s.despawnQueues ++ [loc]) ∧
    (∀ choices : List (Loc × String),
      (spawnMany s choices).despawnQueues = s.despawnQueues ++ choices.map Prod.fst) := by
  have hspawnMany : ∀ (choices : List (Loc × String)) (t : ServerState),
      (spawnMany t choices).despawnQueues = t.despawnQueues ++ choices.map Prod.fst := by
    intro choices
    induction choices with
    | nil => intro t; simp [spawnMany]
    | cons c cs ih =>
      intro t
      have : spawnMany t (c :: cs) = spawnMany (spawnPokemon t c.1 c.2) cs := rfl
      rw [this, ih]
      simp [spawnPokemon]
  refine ⟨?_, ?_, fun loc pid => rfl, fun choices => hspawnMany choices s⟩
  · intro hlen
    simp [despawnTick, hlen]
  · intro hlen
    have hc : ¬(s.despawnQueues.length < NUMBERTOPROCESS) := not_lt.mpr hlen
    have hds : (despawnTick s).1 =
        { (s.despawnQueues.take NUMBERTOPROCESS).foldl clearLoc s with
          despawnQueues := s.despawnQueues.drop NUMBERTOPROCESS } := by
      simp [despawnTick, hc]
    have hb : ∀ l, (despawnTick s).1.board l =
        ((s.despawnQueues.take NUMBERTOPROCESS).foldl clearLoc s).board l := by
      intro l; rw [hds]
    have hlk : ∀ l, alLookup (despawnTick s).1.pokemonLocations l =
        alLookup ((s.despawnQueues.take NUMBERTOPROCESS).foldl clearLoc s).pokemonLocations l := by
      intro l; rw [hds]
    refine ⟨?_, ?_, ?_, ?_, ?_⟩
    · rw [hds]
    · simp [despawnTick, hc]
    · intro l hl
      exact ⟨by rw [hb, foldl_clearLoc_board, if_pos hl],
        by rw [hlk, foldl_clearLoc_lookup, if_pos hl]⟩
    · intro l hl
      exact ⟨by rw [hb, foldl_clearLoc_board, if_neg hl],
        by rw [hlk, foldl_clearLoc_lookup, if_neg hl]⟩
    · rw [hds]
      exact foldl_clearLoc_player _ _

def demoChoices : List (Loc × String) :=
  [((0, 0), "1"), ((0, 1), "2"), ((1, 2), "3"), ((2, 3), "4"), ((3, 4), "5")]

theorem C9_despawn_fifo_witness :
    (despawnTick (spawnMany initState demoChoices)).2 =
      [((0, 0), ""), ((0, 1), ""), ((1, 2), ""), ((2, 3), ""), ((3, 4), "")] ∧
    (despawnTick (spawnMany initState demoChoices)).1.despawnQueues = [] ∧
    (despawnTick (spawnMany initState demoChoices)).1.board (0, 0) = "" ∧
    alLookup (despawnTick (spawnMany initState demoChoices)).1.pokemonLocations (0, 0) = none ∧
    despawnTick initState = (initState, []) := by
  have h := C9_despawn_fifo (spawnMany initState demoChoices)
  have h2 := h.2.1 (by decide)
  refine ⟨?_, ?_, ?_, ?_, (C9_despawn_fifo initState).1 (by decide)⟩
  · rw [h2.2.1]; decide
  · rw [h2.1]; decide
  · exact (h2.2.2.1 (0, 0) (by decide)).1
  · exact (h2.2.2.1 (0, 0) (by decide)).2

/-- C7 (amended): on every movement into a creature-occupied cell, the mover
is FIRST acknowledged with `{identity: creatureId}`, and only THEN are the
accounts updated and rewritten to `players.json` (the claimed
persist-before-acknowledge order is false — see the counterexample); the
creature appended to every matching account is the catalog entry AT INDEX
`Atoi(creatureId)`, not the template whose id field equals the cell's id;
the cell is cleared from both the grid and the location index, and every
other connected player is notified with `{location: ""}`. -/
theorem C7_catch_resolution (POKEMONS : List Pokemon) (connections : List String)
    (players : List Player) (board : Loc → String)
    (pokemonLocations : List (Loc × String))
    (username : String) (loc : Loc) (pokemonID : String) (r : CatchResult)
    (h : catchPokemon POKEMONS connections players board pokemonLocations
          username loc pokemonID = some r) :
    r.events = SEvent.sendUser username username pokemonID ::
        SEvent.persistPlayers r.players ::
        (connections.filter (fun u => decide (u ≠ username))).map
          (fun u => SEvent.sendLoc u loc "") ∧
    r.board loc = "" ∧
    alLookup r.pokemonLocations loc = none ∧
    (∀ l, l ≠ loc → r.board l = board l) ∧
    (∀ l, l ≠ loc → alLookup r.pokemonLocations l = alLookup pokemonLocations l) ∧
    (players.any (fun pl => decide (pl.username = username)) = true →
      ∃ caught, goIndex POKEMONS (goAtoi pokemonID) = some caught ∧
        r.players = players.map (fun pl =>
          if pl.username = username then { pl with pokeBalls := pl.pokeBalls ++ [caught] }
          else pl)) ∧
    (players.any (fun pl => decide (pl.username = username)) = false →
      r.players = players) := by
  unfold catchPokemon at h
  dsimp only at h
  by_cases hany : players.any (fun pl => decide (pl.username = username)) = true
  · rw [if_pos hany] at h
    cases hgi : goIndex POKEMONS (goAtoi pokemonID) with
    | none => rw [hgi] at h; cases h
    | some caught =>
      rw [hgi] at h
      simp only [Option.map_some'] at h
      obtain rfl := (Option.some.inj h).symm
      refine ⟨rfl, by simp [setCell], alLookup_alDel_self _ _, ?_, ?_, ?_, ?_⟩
      · intro l hl; simp [setCell, hl]
      · intro l hl; exact alLookup_alDel_ne _ hl
      · intro _; exact ⟨caught, rfl, rfl⟩
      · intro hf; rw [hany] at hf; cases hf
  · rw [if_neg hany] at h
    simp only [Option.map_some'] at h
    obtain rfl := (Option.some.inj h).symm
    refine ⟨rfl, by simp [setCell], alLookup_alDel_self _ _, ?_, ?_, ?_, ?_⟩
    · intro l hl; simp [setCell, hl]
    · intro l hl; exact alLookup_alDel_ne _ hl
    · intro ht; exact absurd ht hany
    · intro _; rfl

def demoBulbasaur : Pokemon :=
  ⟨"1", "Bulbasaur", ["grass"], [("HP", "45"), ("Attack", "49"), ("Defense", "49"), ("Speed", "45")], "64"⟩

def demoIvysaur : Pokemon :=
  ⟨"2", "Ivysaur", ["grass"], [("HP", "60"), ("Attack", "62"), ("Defense", "63"), ("Speed", "60")], "142"⟩

def demoCatchDex : List Pokemon := [demoBulbasaur, demoIvysaur]

def demoCatchResult : Option CatchResult :=
  catchPokemon demoCatchDex ["ash", "gary"] [⟨"ash", "pass", []⟩]
    (setCell (fun _ => "") (2, 3) "1") [((2, 3), "1")] "ash" (2, 3) "1"

/-- C7 counterexample: "ash" catches the creature with id "1" at cell (2,3).
The acknowledgement `{ash: "1"}` is emitted BEFORE the account store is
persisted (events list: acknowledge, then persist, then the
`{location: ""}` notice to "gary"), and the creature appended to the account
is `POKEMONS[1]` = Ivysaur, whose id "2" differs from the cell's creature id
"1" even though the catalog holds a template with id "1" — both contradicting
the claim. -/
theorem C7_counterexample :
    demoCatchResult.map (fun r => r.events) =
      some [SEvent.sendUser "ash" "ash" "1",
            SEvent.persistPlayers [⟨"ash", "pass", [demoIvysaur]⟩],
            SEvent.sendLoc "gary" (2, 3) ""] ∧
    demoCatchResult.map (fun r => r.players) = some [⟨"ash", "pass", [demoIvysaur]⟩] ∧
    demoIvysaur.id = "2" ∧ demoBulbasaur.id = "1" ∧ demoIvysaur.id ≠ "1" := by
  decide

def demoCatchR : CatchResult :=
  { players := [⟨"ash", "pass", [demoIvysaur]⟩]
    board := setCell (setCell (fun _ => "") (2, 3) "1") (2, 3) ""
    pokemonLocations := alDel [((2, 3), "1")] (2, 3)
    events := [SEvent.sendUser "ash" "ash" "1",
               SEvent.persistPlayers [⟨"ash", "pass", [demoIvysaur]⟩],
               SEvent.sendLoc "gary" (2, 3) ""] }

theorem C7_catch_resolution_witness :
    demoCatchR.events = SEvent.sendUser "ash" "ash" "1" ::
      SEvent.persistPlayers demoCatchR.players ::
      ((["ash", "gary"].filter (fun u => decide (u ≠ "ash"))).map
        (fun u => SEvent.sendLoc u (2, 3) "")) ∧
    demoCatchR.board (2, 3) = "" ∧
    alLookup demoCatchR.pokemonLocations (2, 3) = none := by
  have h := C7_catch_resolution demoCatchDex ["ash", "gary"] [⟨"ash", "pass", []⟩]
    (setCell (fun _ => "") (2, 3) "1") [((2, 3), "1")] "ash" (2, 3) "1" demoCatchR rfl
  exact ⟨h.1, h.2.1, h.2.2.1⟩
